import Mathlib

/-
Shallow embedding of diskquota gp_activetable.c (active-table detection and
segment size aggregation) and the parts of its environment the claims need.
Definitions follow the C source closely; host functions that live outside the
repository (catalog lookups, pg_table_size, the relation cache implementation)
are taken as parameters or, where the claim needs their behavior, modelled
from the specification and marked as such.
-/

namespace Diskquota

/-- Object identifiers: unsigned 32-bit in the host, modelled as Nat. -/
abbrev Oid := Nat

/-- InvalidOid is 0 in the host. -/
def InvalidOid : Oid := 0

/-- pg_class relation class id constant of the host. -/
def RelationRelationId : Oid := 1259

/-- First oid available for user objects in the host. -/
def FirstNormalObjectId : Oid := 16384

/-- Physical file identifier: (tablespace, database, relfilenode). -/
structure RelFileNode where
  spcNode : Oid
  dbNode : Oid
  relNode : Oid
deriving DecidableEq

/-- RelFileNode plus a backend id, as passed to the smgr hooks. -/
structure RelFileNodeBackend where
  node : RelFileNode
  backend : Int
deriving DecidableEq

/-- Key and entry of the shared active_tables_map (key is the whole struct). -/
structure DiskQuotaActiveTableFileEntry where
  dbid : Oid
  relfilenode : Oid
  tablespaceoid : Oid
deriving DecidableEq

/-- Key of the local per-relation size maps. -/
structure TableEntryKey where
  reloid : Oid
  segid : Int
deriving DecidableEq

/-- Entry of the local per-relation size maps. -/
structure DiskQuotaActiveTableEntry where
  reloid : Oid
  tablesize : Int
  segid : Int
deriving DecidableEq

/-- The shared active_tables_map: a bounded hash set of file entries, created
with max size diskquota_max_active_tables. Modelled as a duplicate-free list
of entries plus the capacity bound. -/
structure ActiveTablesMap where
  entries : List DiskQuotaActiveTableFileEntry
  cap : Nat
deriving DecidableEq

/-- hash_search(map, key, HASH_ENTER_NULL, found): when the key is present the
map is unchanged (found); when absent and below capacity it is inserted; when
absent and at capacity the allocation returns NULL and the map is unchanged. -/
def hashEnterNull (m : ActiveTablesMap) (e : DiskQuotaActiveTableFileEntry) :
    ActiveTablesMap :=
  if e ∈ m.entries then m
  else if m.entries.length < m.cap then { m with entries := m.entries ++ [e] }
  else m

/-- Whether the HASH_ENTER_NULL call on this map and key returns NULL:
only when the key is absent and the map is at capacity. -/
def hashEnterNullFails (m : ActiveTablesMap) (e : DiskQuotaActiveTableFileEntry) :
    Bool :=
  ¬ (e ∈ m.entries) ∧ ¬ (m.entries.length < m.cap)

/-- Per-process environment read by the probes: IS_QUERY_DISPATCHER(),
IsRoleMirror(), and the monitoring_dbid_cache shared set of monitored dbids. -/
structure ProcEnv where
  isQueryDispatcher : Bool
  isRoleMirror : Bool
  monitoringDbidCache : List Oid
deriving DecidableEq

/-- The warning text emitted by report_active_table_helper on overflow. -/
def warningSharedMemoryMsg : String :=
  "Share memory is not enough for active tables."

/-- Embedding of report_active_table_helper (gp_activetable.c lines 232-277):
return on dispatcher or mirror; return when the dbid is not monitored;
otherwise insert the (dbid, relfilenode, tablespaceoid) triple with
HASH_ENTER_NULL under the active-table lock, emitting a warning when the
allocation fails. Returns the new map and the list of emitted warnings. -/
def report_active_table_helper (env : ProcEnv) (m : ActiveTablesMap)
    (relFileNode : RelFileNode) : ActiveTablesMap × List String :=
  if env.isQueryDispatcher || env.isRoleMirror then (m, [])
  else if ¬ (relFileNode.dbNode ∈ env.monitoringDbidCache) then (m, [])
  else
    let item : DiskQuotaActiveTableFileEntry :=
      ⟨relFileNode.dbNode, relFileNode.relNode, relFileNode.spcNode⟩
    if hashEnterNullFails m item
    then (m, [warningSharedMemoryMsg])
    else (hashEnterNull m item, [])

/-- Modelled from the spec: a RelationCacheEntry (relation cache keyed by
relation id, carrying the primary relation id and the relfilenode). The
relation cache implementation (relation_cache.c) is not under src/; only the
fields the unlink probe touches are modelled. -/
structure RelationCacheEntry where
  relid : Oid
  primary_table_relid : Oid
  relfilenode : Oid
deriving DecidableEq

/-- Modelled from the spec: remove_cache_entry, the evict operation of the
relation cache (relation_cache.c is not under src/). Per the spec, evict is
keyed by relation id or by relfilenode id; when keyed by relfilenode (the
relation id argument is InvalidOid) it scans for and removes every entry whose
relfilenode matches. -/
def remove_cache_entry (cache : List RelationCacheEntry) (relid : Oid)
    (relfilenode : Oid) : List RelationCacheEntry :=
  if relid ≠ InvalidOid then cache.filter (fun e => e.relid ≠ relid)
  else cache.filter (fun e => e.relfilenode ≠ relfilenode)

/-- Combined per-node state touched by the file probes. -/
structure ProbeState where
  activeMap : ActiveTablesMap
  relationCache : List RelationCacheEntry
  warnings : List String
deriving DecidableEq

/-- Embedding of active_table_hook_smgrcreate (previous hook chains are not
modelled; init_active_table_hook saves NULL previous hooks here): the create
probe reports the file to the active table map. -/
def active_table_hook_smgrcreate (env : ProcEnv) (s : ProbeState)
    (rnode : RelFileNodeBackend) : ProbeState :=
  let r := report_active_table_helper env s.activeMap rnode.node
  { s with activeMap := r.1, warnings := s.warnings ++ r.2 }

/-- Embedding of active_table_hook_smgrextend: identical to the create probe. -/
def active_table_hook_smgrextend (env : ProcEnv) (s : ProbeState)
    (rnode : RelFileNodeBackend) : ProbeState :=
  let r := report_active_table_helper env s.activeMap rnode.node
  { s with activeMap := r.1, warnings := s.warnings ++ r.2 }

/-- Embedding of active_table_hook_smgrtruncate: identical to the create probe. -/
def active_table_hook_smgrtruncate (env : ProcEnv) (s : ProbeState)
    (rnode : RelFileNodeBackend) : ProbeState :=
  let r := report_active_table_helper env s.activeMap rnode.node
  { s with activeMap := r.1, warnings := s.warnings ++ r.2 }

/-- Embedding of active_table_hook_smgrunlink (gp_activetable.c lines 170-177):
it only calls remove_cache_entry(InvalidOid, rnode.node.relNode); it does not
report to the active table map and performs no dispatcher, mirror or
monitored-db check. -/
def active_table_hook_smgrunlink (_env : ProcEnv) (s : ProbeState)
    (rnode : RelFileNodeBackend) : ProbeState :=
  { s with relationCache :=
      remove_cache_entry s.relationCache InvalidOid rnode.node.relNode }

/-- Local per-relation size maps (hash tables keyed by TableEntryKey),
modelled as association lists. -/
abbrev StatsMap := List (TableEntryKey × DiskQuotaActiveTableEntry)

/-- hash_search(map, key, HASH_FIND): lookup in a local stats map. -/
def statsLookup : StatsMap → TableEntryKey → Option DiskQuotaActiveTableEntry
  | [], _ => none
  | p :: ps, k => if p.1 = k then some p.2 else statsLookup ps k

/-- Whether a key is present in a local stats map. -/
def statsContains (m : StatsMap) (k : TableEntryKey) : Bool :=
  (statsLookup m k).isSome

/-- hash_search(map, key, HASH_ENTER) followed by field assignments: when the
key is absent a fresh entry is inserted and initialised to e; when present the
existing entry is updated by f (the code reads or overwrites its fields). -/
def statsUpdate : StatsMap → TableEntryKey → DiskQuotaActiveTableEntry →
    (DiskQuotaActiveTableEntry → DiskQuotaActiveTableEntry) → StatsMap
  | [], k, e, _ => [(k, e)]
  | p :: ps, k, e, f =>
      if p.1 = k then (k, f p.2) :: ps else p :: statsUpdate ps k e f

/-- The size a relation gets in get_active_tables_stats: the pg_table_size
result on success, 0 when the sub-transaction aborted. -/
def subtxnSize (r : Except String Int) : Int :=
  match r with
  | .ok sz => sz
  | .error _ => 0

/-- Embedding of get_active_tables_stats (gp_activetable.c lines 474-610),
the FETCH_ACTIVE_SIZE mode. For each processed array element an entry keyed
by (relOid, segId) is entered, then pg_table_size runs inside a
sub-transaction: on success the entry gets the returned size, on error the
sub-transaction is rolled back, the error message is logged as a warning and
the entry gets size 0; the loop then continues with the next element.
pg_table_size is host code, taken as the parameter sizeOf.

NULL elements are tested through the array null bitmap, which the host
allocates exactly when the array has a NULL element (a set bit meaning the
element is present). When the tested bit is zero the loop continues, and
that continue also skips the bit-cursor advance at the end of the loop body,
so the cursor stays on the zero bit and every element from the first NULL
on is skipped. stats_step is the body of the loop; the Bool component of the
accumulator is whether the bit cursor is stuck on a zero bit. -/
def stats_step (segId : Int) (sizeOf : Oid → Except String Int)
    (acc : StatsMap × List String × Bool) (elt : Option Oid) :
    StatsMap × List String × Bool :=
  if acc.2.2 then acc
  else
    match elt with
    | none => (acc.1, acc.2.1, true)
    | some relOid =>
        let e : DiskQuotaActiveTableEntry :=
          ⟨relOid, subtxnSize (sizeOf relOid), segId⟩
        (statsUpdate acc.1 ⟨relOid, segId⟩ e (fun _ => e),
         (match sizeOf relOid with
          | .ok _ => acc.2.1
          | .error msg => acc.2.1 ++ [msg]),
         false)

/-- The whole loop of get_active_tables_stats, starting from the empty local
map, an empty warning log and a free bit cursor; the local map and the
warnings are returned. -/
def get_active_tables_stats (segId : Int) (sizeOf : Oid → Except String Int)
    (arr : List (Option Oid)) : StatsMap × List String :=
  ((arr.foldl (stats_step segId sizeOf) ([], [], false)).1,
   (arr.foldl (stats_step segId sizeOf) ([], [], false)).2.1)

/-- The RelFileNode rebuilt from a drained file entry in get_active_tables_oid
(rnode.dbNode = dbid, rnode.relNode = relfilenode, rnode.spcNode =
tablespaceoid). -/
def entryRelFileNode (e : DiskQuotaActiveTableFileEntry) : RelFileNode :=
  ⟨e.tablespaceoid, e.dbid, e.relfilenode⟩

/-- Insertion into the oid-keyed local result set of get_active_tables_oid
(HASH_ENTER: a no-op when the oid is already present). -/
def oidSetInsert (s : List Oid) (o : Oid) : List Oid :=
  if o ∈ s then s else s ++ [o]

/-- Embedding of gp_activetable.c lines 716-730: unresolved entries are put
back into the shared map with hash_search(HASH_ENTER_NULL); the return value
of the allocation is not checked and no message of any kind is emitted, so an
entry that does not fit is silently discarded. Returns the new shared map and
the (always empty) list of emitted warnings. -/
def put_back_unresolved (shared : ActiveTablesMap)
    (unresolved : List DiskQuotaActiveTableFileEntry) :
    ActiveTablesMap × List String :=
  (unresolved.foldl hashEnterNull shared, [])

/-- Embedding of get_active_tables_oid (gp_activetable.c lines 619-733), the
FETCH_ACTIVE_OID mode. Under the active-table writer lock the entries whose
dbid equals MyDatabaseId are moved from the shared map into a local map; each
drained entry is resolved to a relation oid via get_relid_by_relfilenode and
mapped to its primary via get_primary_table_oid (both live in
relation_cache.c, taken as the parameters resolve and primary, with InvalidOid
denoting failure); resolved entries enter the oid result set and unresolved
ones are put back into the shared map. Returns the final shared map and the
result oid set. -/
def get_active_tables_oid (myDb : Oid) (resolve : RelFileNode → Oid)
    (primary : Oid → Oid) (shared : ActiveTablesMap) :
    ActiveTablesMap × List Oid :=
  let drained := shared.entries.filter (fun e => e.dbid = myDb)
  let sharedAfterDrain : ActiveTablesMap :=
    { shared with entries := shared.entries.filter (fun e => e.dbid ≠ myDb) }
  let resolved :=
    drained.filter (fun e => resolve (entryRelFileNode e) ≠ InvalidOid)
  let unresolved :=
    drained.filter (fun e => resolve (entryRelFileNode e) = InvalidOid)
  let resultSet :=
    (resolved.map (fun e => primary (resolve (entryRelFileNode e)))).foldl
      oidSetInsert []
  ((put_back_unresolved sharedAfterDrain unresolved).1, resultSet)

/-- One row of a segment reply to fetch_table_stat: relation oid, size, and
(only meaningful when the reply has three columns) the segment id. -/
structure SegStatRow where
  reloid : Oid
  tablesize : Int
  segid : Int
deriving DecidableEq

/-- One segment reply: its column count (PQnfields) and its rows. -/
structure SegResult where
  nfields : Nat
  rows : List SegStatRow
deriving DecidableEq

/-- Processing of one reply row in pull_active_table_size_from_seg
(gp_activetable.c lines 973-1015): when the reply has three columns the entry
keyed by (reloid, segid) is entered and its tablesize overwritten with the
reported size; in every case the entry keyed by (reloid, -1) is entered with
the reported size or, when already present, incremented by it. -/
def pull_row_step (nfields : Nat) (m : StatsMap) (row : SegStatRow) :
    StatsMap :=
  statsUpdate
    (if nfields = 3 then
      statsUpdate m ⟨row.reloid, row.segid⟩
        ⟨row.reloid, row.tablesize, row.segid⟩
        (fun old => { old with tablesize := row.tablesize })
    else m)
    ⟨row.reloid, -1⟩ ⟨row.reloid, row.tablesize, -1⟩
    (fun old => { old with tablesize := old.tablesize + row.tablesize })

/-- Embedding of the aggregation loop of pull_active_table_size_from_seg
(gp_activetable.c lines 931-1019): every row of every segment reply is folded
into the local table stats map. -/
def pull_active_table_size_from_seg (m : StatsMap)
    (results : List SegResult) : StatsMap :=
  results.foldl (fun acc res => res.rows.foldl (pull_row_step res.nfields) acc) m

/-- The contribution of one reply row to the cluster-wide total of relation R. -/
def rowContribution (R : Oid) (row : SegStatRow) : Int :=
  if row.reloid = R then row.tablesize else 0

/-- The sum of the sizes reported for relation R over all segment replies. -/
def sumReported (results : List SegResult) (R : Oid) : Int :=
  (results.map (fun res => (res.rows.map (rowContribution R)).sum)).sum

/-- Gp_role values relevant to this module. -/
inductive GpRole
  | dispatch
  | execute
  | utility
deriving DecidableEq

/-- ObjectAccessType values relevant to this module. -/
inductive ObjectAccessType
  | OAT_POST_CREATE
  | OAT_DROP
  | OAT_POST_ALTER
  | OAT_NAMESPACE_SEARCH
  | OAT_FUNCTION_EXECUTE
  | OAT_TRUNCATE
deriving DecidableEq

/-- FetchTableStatType enum value FETCH_ACTIVE_OID (diskquota.h). -/
def FETCH_ACTIVE_OID : Int := 0

/-- FetchTableStatType enum value FETCH_ACTIVE_SIZE (diskquota.h). -/
def FETCH_ACTIVE_SIZE : Int := 1

/-- The error text for an unknown extension major version. -/
def unknownVersionMsg : String :=
  "[diskquota] unknown diskquota extension version"

/-- Embedding of the tuple-descriptor switch of diskquota_fetch_table_stat
(gp_activetable.c lines 396-410): extension major version 1 yields a
two-column tuple descriptor, version 2 a three-column one (adding
GP_SEGMENT_ID), anything else is an error. -/
def createTemplateTupleDescCols (extMajorVersion : Int) : Except String Nat :=
  if extMajorVersion = 1 then .ok 2
  else if extMajorVersion = 2 then .ok 3
  else .error unknownVersionMsg

/-- Embedding of the query switch of load_table_size (gp_activetable.c lines
750-762): version 1 selects a constant -1 segid, version 2 selects the segid
column, anything else is an error. -/
def load_table_size_query (extMajorVersion : Int) : Except String String :=
  if extMajorVersion = 1 then
    .ok "select tableid, size, CAST(-1 AS smallint) from diskquota.table_size"
  else if extMajorVersion = 2 then
    .ok "select tableid, size, segid from diskquota.table_size"
  else .error unknownVersionMsg

/-- The error text raised when fetch_table_stat runs on the coordinator. -/
def masterCallMsg : String :=
  "This function must not be called on master or by user"

/-- The error text raised for an unknown mode argument. -/
def unusedModeMsg : String :=
  "Unused mode number, transaction will be aborted"

/-- Embedding of diskquota_fetch_table_stat (gp_activetable.c lines 335-468).
The extension major version is read first (host SPI call, taken as a
parameter); a dispatch- or utility-role process then errors out; otherwise the
mode selects get_active_tables_oid or get_active_tables_stats, and the tuple
descriptor is built from the major version. On success the result is the
column count, the returned (reloid, tablesize, segid) tuples, and the final
shared active-table map. -/
def diskquota_fetch_table_stat (role : GpRole) (extMajorVersion : Int)
    (mode : Int) (oidArray : List (Option Oid)) (myDb : Oid)
    (resolve : RelFileNode → Oid) (primary : Oid → Oid) (segId : Int)
    (sizeOf : Oid → Except String Int) (shared : ActiveTablesMap) :
    Except String (Nat × List (Oid × Int × Int) × ActiveTablesMap) :=
  if role = GpRole.dispatch ∨ role = GpRole.utility then
    .error masterCallMsg
  else
    match
      (if mode = FETCH_ACTIVE_OID then
        let r := get_active_tables_oid myDb resolve primary shared
        .ok (r.2.map (fun o => (o, (0 : Int), (-1 : Int))), r.1)
      else if mode = FETCH_ACTIVE_SIZE then
        .ok (((get_active_tables_stats segId sizeOf oidArray).1.map
          (fun p => (p.2.reloid, p.2.tablesize, p.2.segid))), shared)
      else
        (.error unusedModeMsg :
          Except String (List (Oid × Int × Int) × ActiveTablesMap))) with
    | .error msg => .error msg
    | .ok r =>
        match createTemplateTupleDescCols extMajorVersion with
        | .error msg => .error msg
        | .ok ncols => .ok (ncols, r.1, r.2)

/-- Embedding of report_relation_cache_helper (gp_activetable.c lines
203-224): skip on the dispatcher or a mirror, skip when the current database
is not monitored, otherwise invoke update_relation_cache(relid).
update_relation_cache lives in relation_cache.c; the embedding returns the
oid handed to it, or none when no update happens. -/
def report_relation_cache_helper (env : ProcEnv) (myDatabaseId : Oid)
    (relid : Oid) : Option Oid :=
  if env.isQueryDispatcher || env.isRoleMirror then none
  else if ¬ (myDatabaseId ∈ env.monitoringDbidCache) then none
  else some relid

/-- Embedding of object_access_hook_QuotaStmt (gp_activetable.c lines
179-201): skip when the class is not the relation class OR subId is nonzero;
skip oids below FirstNormalObjectId; skip any phase other than
OAT_POST_CREATE; otherwise run report_relation_cache_helper on the object id. -/
def object_access_hook_QuotaStmt (env : ProcEnv) (myDatabaseId : Oid)
    (access : ObjectAccessType) (classId : Oid) (objectId : Oid)
    (subId : Int) : Option Oid :=
  if classId ≠ RelationRelationId ∨ subId ≠ 0 then none
  else if objectId < FirstNormalObjectId then none
  else if access ≠ ObjectAccessType.OAT_POST_CREATE then none
  else report_relation_cache_helper env myDatabaseId objectId

theorem statsLookup_update_self (m : StatsMap) (k : TableEntryKey)
    (e : DiskQuotaActiveTableEntry)
    (f : DiskQuotaActiveTableEntry → DiskQuotaActiveTableEntry) :
    statsLookup (statsUpdate m k e f) k = some ((statsLookup m k).elim e f) := by
  induction m with
  | nil => simp [statsUpdate, statsLookup]
  | cons p ps ih =>
      by_cases h : p.1 = k
      · simp [statsUpdate, statsLookup, h]
      · simp [statsUpdate, statsLookup, h, ih]

theorem statsLookup_update_other (m : StatsMap) (k k' : TableEntryKey)
    (e : DiskQuotaActiveTableEntry)
    (f : DiskQuotaActiveTableEntry → DiskQuotaActiveTableEntry)
    (h : k' ≠ k) :
    statsLookup (statsUpdate m k e f) k' = statsLookup m k' := by
  induction m with
  | nil =>
      have hne : ¬ (k = k') := fun hh => h hh.symm
      simp [statsUpdate, statsLookup, hne]
  | cons p ps ih =>
      by_cases hp : p.1 = k
      · subst hp
        simp [statsUpdate, statsLookup, h, Ne.symm h]
      · by_cases hp' : p.1 = k'
        · simp [statsUpdate, statsLookup, hp, hp', h]
        · simp [statsUpdate, statsLookup, hp, hp', ih]

theorem option_elim_const (o : Option DiskQuotaActiveTableEntry)
    (e : DiskQuotaActiveTableEntry) : o.elim e (fun _ => e) = e := by
  cases o <;> rfl

theorem stats_fold_frame (segId : Int) (sizeOf : Oid → Except String Int)
    (arr : List (Option Oid)) :
    ∀ (m : StatsMap) (logs : List String) (k : TableEntryKey),
      none ∉ arr →
      (∀ r : Oid, some r ∈ arr → (⟨r, segId⟩ : TableEntryKey) ≠ k) →
      statsLookup (arr.foldl (stats_step segId sizeOf) (m, logs, false)).1 k
        = statsLookup m k := by
  induction arr with
  | nil => intro m logs k _ _; rfl
  | cons x rest ih =>
      intro m logs k hnone h
      cases x with
      | none => exact absurd (List.mem_cons_self _ _) hnone
      | some r =>
          rw [List.foldl_cons]
          have hstep : stats_step segId sizeOf (m, logs, false) (some r)
              = (statsUpdate m ⟨r, segId⟩
                  ⟨r, subtxnSize (sizeOf r), segId⟩
                  (fun _ => ⟨r, subtxnSize (sizeOf r), segId⟩),
                 (match sizeOf r with
                  | .ok _ => logs
                  | .error msg => logs ++ [msg]),
                 false) := rfl
          rw [hstep,
            ih _ _ k (fun hm => hnone (List.mem_cons_of_mem _ hm))
              (fun r2 hr => h r2 (List.mem_cons_of_mem _ hr))]
          exact statsLookup_update_other _ _ _ _ _
            (Ne.symm (h r (List.mem_cons_self _ _)))

theorem stats_fold_lookup (segId : Int) (sizeOf : Oid → Except String Int)
    (arr : List (Option Oid)) :
    ∀ (m : StatsMap) (logs : List String) (relOid : Oid),
      none ∉ arr → some relOid ∈ arr →
      statsLookup (arr.foldl (stats_step segId sizeOf) (m, logs, false)).1
          ⟨relOid, segId⟩
        = some ⟨relOid, subtxnSize (sizeOf relOid), segId⟩ := by
  induction arr with
  | nil => intro m logs relOid _ h; cases h
  | cons x rest ih =>
      intro m logs relOid hnone h
      cases x with
      | none => exact absurd (List.mem_cons_self _ _) hnone
      | some r =>
          rw [List.foldl_cons]
          have hstep : stats_step segId sizeOf (m, logs, false) (some r)
              = (statsUpdate m ⟨r, segId⟩
                  ⟨r, subtxnSize (sizeOf r), segId⟩
                  (fun _ => ⟨r, subtxnSize (sizeOf r), segId⟩),
                 (match sizeOf r with
                  | .ok _ => logs
                  | .error msg => logs ++ [msg]),
                 false) := rfl
          rw [hstep]
          by_cases hrest : some relOid ∈ rest
          · exact ih _ _ relOid (fun hm => hnone (List.mem_cons_of_mem _ hm))
              hrest
          · have hx : r = relOid := by
              rcases List.mem_cons.mp h with h1 | h2
              · exact (Option.some.inj h1).symm
              · exact absurd h2 hrest
            subst hx
            rw [stats_fold_frame segId sizeOf rest _ _ _
              (fun hm => hnone (List.mem_cons_of_mem _ hm)) ?_]
            · rw [statsLookup_update_self, option_elim_const]
            · intro r2 hr heq
              have : r2 = r := congrArg TableEntryKey.reloid heq
              subst this
              exact hrest hr

theorem stats_fold_logs_mono (segId : Int) (sizeOf : Oid → Except String Int)
    (arr : List (Option Oid)) :
    ∀ (acc : StatsMap × List String × Bool) (msg : String), msg ∈ acc.2.1 →
      msg ∈ (arr.foldl (stats_step segId sizeOf) acc).2.1 := by
  induction arr with
  | nil => intro acc msg h; exact h
  | cons x rest ih =>
      intro acc msg h
      rw [List.foldl_cons]
      apply ih
      unfold stats_step
      split_ifs
      · exact h
      · cases x with
        | none => exact h
        | some r =>
            cases hs : sizeOf r with
            | ok sz => simpa [hs] using h
            | error m2 => simp [hs]; exact Or.inl h

theorem stats_fold_logs_err (segId : Int) (sizeOf : Oid → Except String Int)
    (arr : List (Option Oid)) :
    ∀ (m : StatsMap) (logs : List String) (relOid : Oid) (msg : String),
      none ∉ arr → some relOid ∈ arr → sizeOf relOid = .error msg →
      msg ∈ (arr.foldl (stats_step segId sizeOf) (m, logs, false)).2.1 := by
  induction arr with
  | nil => intro m logs relOid msg _ h _; cases h
  | cons x rest ih =>
      intro m logs relOid msg hnone h herr
      cases x with
      | none => exact absurd (List.mem_cons_self _ _) hnone
      | some r =>
          rw [List.foldl_cons]
          rcases List.mem_cons.mp h with h1 | h2
          · have hr : r = relOid := (Option.some.inj h1).symm
            subst hr
            apply stats_fold_logs_mono
            unfold stats_step
            simp [herr]
          · have hstep : stats_step segId sizeOf (m, logs, false) (some r)
                = (statsUpdate m ⟨r, segId⟩
                    ⟨r, subtxnSize (sizeOf r), segId⟩
                    (fun _ => ⟨r, subtxnSize (sizeOf r), segId⟩),
                   (match sizeOf r with
                    | .ok _ => logs
                    | .error msg2 => logs ++ [msg2]),
                   false) := rfl
            rw [hstep]
            exact ih _ _ relOid msg
              (fun hm => hnone (List.mem_cons_of_mem _ hm)) h2 herr

/-- C2: the per-relation sub-transaction behavior is exactly as claimed on
arrays without NULL elements — every input relation is returned keyed
(relOid, segId) with its pg_table_size result, or with size 0 and a logged
warning when the call raised, the other relations unaffected — but the code
does not return results for relations after a NULL element: the NULL-skip
continue bypasses the null-bitmap cursor advance, so on the input
(NULL, relation 2) relation 2 is dropped from the result, though without the
leading NULL it is returned. -/
theorem C2_subtransaction_null_skip :
    (∀ (segId : Int) (sizeOf : Oid → Except String Int)
        (arr : List (Option Oid)) (relOid : Oid),
        none ∉ arr → some relOid ∈ arr →
        statsLookup (get_active_tables_stats segId sizeOf arr).1
            ⟨relOid, segId⟩
          = some ⟨relOid, subtxnSize (sizeOf relOid), segId⟩
        ∧ (∀ msg, sizeOf relOid = .error msg →
            msg ∈ (get_active_tables_stats segId sizeOf arr).2))
    ∧ statsLookup (get_active_tables_stats 0 (fun _ => .ok 7)
        [none, some 2]).1 ⟨2, 0⟩ = none
    ∧ statsLookup (get_active_tables_stats 0 (fun _ => .ok 7)
        [some 2]).1 ⟨2, 0⟩ = some ⟨2, 7, 0⟩ := by
  refine ⟨?_, rfl, rfl⟩
  intro segId sizeOf arr relOid hnone hmem
  constructor
  · exact stats_fold_lookup segId sizeOf arr [] [] relOid hnone hmem
  · intro msg herr
    exact stats_fold_logs_err segId sizeOf arr [] [] relOid msg hnone hmem herr

/-- Witness for C2: with the NULL-free array [1, 2] and pg_table_size
failing on relation 2, relation 2 is reported with size 0 and the error
message is logged. -/
theorem C2_subtransaction_null_skip_witness :
    statsLookup (get_active_tables_stats 0
        (fun o => if o = 2 then .error "relation dropped" else .ok 7)
        [some 1, some 2]).1 ⟨2, 0⟩
      = some ⟨2, 0, 0⟩
    ∧ "relation dropped" ∈ (get_active_tables_stats 0
        (fun o => if o = 2 then .error "relation dropped" else .ok 7)
        [some 1, some 2]).2 := by
  have h := C2_subtransaction_null_skip.1 0
    (fun o => if o = 2 then .error "relation dropped" else .ok 7)
    [some 1, some 2] 2 (by decide) (by decide)
  exact ⟨h.1, h.2 "relation dropped" rfl⟩

/-- C5: a probe whose insertion hits a full active-table map (the triple is
absent and the map holds diskquota_max_active_tables entries) logs the
overflow warning, drops the event, and returns with the shared map unchanged;
the embedding is a total function returning normally, so no error reaches the
caller. -/
theorem C5_probe_overflow_drops (env : ProcEnv) (m : ActiveTablesMap)
    (rn : RelFileNode)
    (hd : env.isQueryDispatcher = false) (hm : env.isRoleMirror = false)
    (hmon : rn.dbNode ∈ env.monitoringDbidCache)
    (habs : (⟨rn.dbNode, rn.relNode, rn.spcNode⟩ :
        DiskQuotaActiveTableFileEntry) ∉ m.entries)
    (hfull : m.cap ≤ m.entries.length) :
    report_active_table_helper env m rn = (m, [warningSharedMemoryMsg]) := by
  unfold report_active_table_helper
  simp [hd, hm, hmon, hashEnterNullFails, habs, Nat.not_lt.mpr hfull]

/-- Witness for C5: a map of capacity 1 holding one entry, probed with a
distinct monitored file: the map is unchanged and the warning is emitted. -/
theorem C5_probe_overflow_drops_witness :
    report_active_table_helper ⟨false, false, [5]⟩ ⟨[⟨5, 1, 1⟩], 1⟩ ⟨7, 5, 9⟩
      = (⟨[⟨5, 1, 1⟩], 1⟩, [warningSharedMemoryMsg]) :=
  C5_probe_overflow_drops ⟨false, false, [5]⟩ ⟨[⟨5, 1, 1⟩], 1⟩ ⟨7, 5, 9⟩
    rfl rfl (by decide) (by decide) (by decide)

/-- C1 counterexample: on a primary segment, with the database monitored and
the shared map empty with free room, the unlink probe leaves the active-table
map empty — it does not insert the (db, tablespace, relfilenode) triple —
whereas the create probe at the same input does insert it. This refutes the
claim that all four file probes insert the triple. -/
theorem C1_counterexample_unlink :
    (active_table_hook_smgrunlink ⟨false, false, [5]⟩
        ⟨⟨[], 10⟩, [], []⟩ ⟨⟨7, 5, 9⟩, -1⟩).activeMap.entries = []
    ∧ (active_table_hook_smgrcreate ⟨false, false, [5]⟩
        ⟨⟨[], 10⟩, [], []⟩ ⟨⟨7, 5, 9⟩, -1⟩).activeMap.entries
        = [⟨5, 9, 7⟩] := by
  constructor <;> rfl

/-- C1 amended: the create, extend and truncate probes behave identically —
return immediately on the coordinator or a mirror, return when the dbid is
not monitored, and otherwise insert the (db_id, tablespace_id,
relfilenode_id) triple into the shared active-table map, a no-op when it is
already present — while the unlink probe performs none of that: it only
evicts the relation-cache entries whose relfilenode matches the descriptor's
and leaves the active-table map untouched. -/
theorem C1_amended_probes (env : ProcEnv) (s : ProbeState)
    (rnode : RelFileNodeBackend) :
    (active_table_hook_smgrextend env s rnode
        = active_table_hook_smgrcreate env s rnode
      ∧ active_table_hook_smgrtruncate env s rnode
        = active_table_hook_smgrcreate env s rnode)
    ∧ (env.isQueryDispatcher = true ∨ env.isRoleMirror = true →
        active_table_hook_smgrcreate env s rnode = s)
    ∧ (rnode.node.dbNode ∉ env.monitoringDbidCache →
        active_table_hook_smgrcreate env s rnode = s)
    ∧ (env.isQueryDispatcher = false → env.isRoleMirror = false →
        rnode.node.dbNode ∈ env.monitoringDbidCache →
        (⟨rnode.node.dbNode, rnode.node.relNode, rnode.node.spcNode⟩ :
            DiskQuotaActiveTableFileEntry) ∈ s.activeMap.entries →
        active_table_hook_smgrcreate env s rnode = s)
    ∧ (env.isQueryDispatcher = false → env.isRoleMirror = false →
        rnode.node.dbNode ∈ env.monitoringDbidCache →
        (⟨rnode.node.dbNode, rnode.node.relNode, rnode.node.spcNode⟩ :
            DiskQuotaActiveTableFileEntry) ∉ s.activeMap.entries →
        s.activeMap.entries.length < s.activeMap.cap →
        (active_table_hook_smgrcreate env s rnode).activeMap.entries
            = s.activeMap.entries ++
              [⟨rnode.node.dbNode, rnode.node.relNode, rnode.node.spcNode⟩]
          ∧ (active_table_hook_smgrcreate env s rnode).relationCache
              = s.relationCache
          ∧ (active_table_hook_smgrcreate env s rnode).warnings = s.warnings)
    ∧ active_table_hook_smgrunlink env s rnode
        = { s with relationCache :=
              (s.relationCache.filter
                (fun e => e.relfilenode ≠ rnode.node.relNode)) } := by
  refine ⟨⟨rfl, rfl⟩, ?_, ?_, ?_, ?_, ?_⟩
  · intro h
    unfold active_table_hook_smgrcreate report_active_table_helper
    rcases h with h | h <;> simp [h]
  · intro h
    unfold active_table_hook_smgrcreate report_active_table_helper
    by_cases hd : env.isQueryDispatcher <;>
      by_cases hm : env.isRoleMirror <;> simp [hd, hm, h]
  · intro hd hm hmon hpres
    unfold active_table_hook_smgrcreate report_active_table_helper
    simp [hd, hm, hmon, hashEnterNullFails, hashEnterNull, hpres]
  · intro hd hm hmon habs hroom
    unfold active_table_hook_smgrcreate report_active_table_helper
    simp [hd, hm, hmon, hashEnterNullFails, hashEnterNull, habs, hroom]
  · unfold active_table_hook_smgrunlink remove_cache_entry
    simp [InvalidOid]

/-- Witness for C1 amended: the create probe inserts the triple on a monitored
primary segment with room, and the unlink probe only filters the relation
cache by relfilenode. -/
theorem C1_amended_probes_witness :
    (active_table_hook_smgrcreate ⟨false, false, [5]⟩ ⟨⟨[], 10⟩, [], []⟩
        ⟨⟨7, 5, 9⟩, -1⟩).activeMap.entries = [⟨5, 9, 7⟩]
    ∧ active_table_hook_smgrunlink ⟨false, false, [5]⟩
        ⟨⟨[], 10⟩, [⟨21, 31, 9⟩, ⟨22, 32, 8⟩], []⟩ ⟨⟨7, 5, 9⟩, -1⟩
      = ⟨⟨[], 10⟩, [⟨22, 32, 8⟩], []⟩ := by
  constructor
  · exact (((C1_amended_probes ⟨false, false, [5]⟩ ⟨⟨[], 10⟩, [], []⟩
      ⟨⟨7, 5, 9⟩, -1⟩).2.2.2.2.1) rfl rfl (by decide) (by decide)
      (by decide)).1
  · rw [(C1_amended_probes ⟨false, false, [5]⟩
      ⟨⟨[], 10⟩, [⟨21, 31, 9⟩, ⟨22, 32, 8⟩], []⟩ ⟨⟨7, 5, 9⟩, -1⟩).2.2.2.2.2]
    decide

/-- C6 counterexample: on the coordinator (dispatch role), fetch_table_stat
in FETCH_ACTIVE_OID mode evaluates to an error — it does not return an empty
result set. -/
theorem C6_counterexample_master_error :
    diskquota_fetch_table_stat GpRole.dispatch 2 FETCH_ACTIVE_OID [] 1
        (fun _ => InvalidOid) id 0 (fun _ => .ok 0) ⟨[], 10⟩
      = .error masterCallMsg
    ∧ ¬ ∃ out, diskquota_fetch_table_stat GpRole.dispatch 2 FETCH_ACTIVE_OID
        [] 1 (fun _ => InvalidOid) id 0 (fun _ => .ok 0) ⟨[], 10⟩
        = .ok out := by
  have h0 : diskquota_fetch_table_stat GpRole.dispatch 2 FETCH_ACTIVE_OID [] 1
      (fun _ => InvalidOid) id 0 (fun _ => .ok 0) ⟨[], 10⟩
      = .error masterCallMsg := rfl
  refine ⟨h0, ?_⟩
  rintro ⟨out, h⟩
  rw [h0] at h
  exact Except.noConfusion h

/-- C6 amended: fetch_table_stat raises the master-call error whenever the
process role is dispatch (the coordinator) or utility, whatever the mode and
arguments; the empty-result behavior claimed for the coordinator does not
exist, and no mirror-specific branch exists in this function. -/
theorem C6_amended_master_errors (role : GpRole) (extMajorVersion : Int)
    (mode : Int) (oidArray : List (Option Oid)) (myDb : Oid)
    (resolve : RelFileNode → Oid) (primary : Oid → Oid) (segId : Int)
    (sizeOf : Oid → Except String Int) (shared : ActiveTablesMap)
    (hrole : role = GpRole.dispatch ∨ role = GpRole.utility) :
    diskquota_fetch_table_stat role extMajorVersion mode oidArray myDb
        resolve primary segId sizeOf shared = .error masterCallMsg := by
  unfold diskquota_fetch_table_stat
  rw [if_pos hrole]

/-- Witness for C6 amended: the utility role also errors out. -/
theorem C6_amended_master_errors_witness :
    diskquota_fetch_table_stat GpRole.utility 1 FETCH_ACTIVE_SIZE [some 3] 1
        (fun _ => InvalidOid) id 0 (fun _ => .ok 0) ⟨[], 10⟩
      = .error masterCallMsg :=
  C6_amended_master_errors GpRole.utility 1 FETCH_ACTIVE_SIZE [some 3] 1
    (fun _ => InvalidOid) id 0 (fun _ => .ok 0) ⟨[], 10⟩ (Or.inr rfl)

/-- C8: the post-object-create probe reaches update_relation_cache for the
object exactly when the phase is OAT_POST_CREATE, the class is the relation
class, subId is 0, the oid is at or above FirstNormalObjectId, the process is
neither the dispatcher nor a mirror, and the current database is monitored;
in every other case it does nothing (returns no update). -/
theorem C8_object_access_filter (env : ProcEnv) (myDb : Oid)
    (access : ObjectAccessType) (classId objectId : Oid) (subId : Int) :
    (object_access_hook_QuotaStmt env myDb access classId objectId subId
        = some objectId
      ↔ access = ObjectAccessType.OAT_POST_CREATE
        ∧ classId = RelationRelationId ∧ subId = 0
        ∧ FirstNormalObjectId ≤ objectId
        ∧ env.isQueryDispatcher = false ∧ env.isRoleMirror = false
        ∧ myDb ∈ env.monitoringDbidCache)
    ∧ (object_access_hook_QuotaStmt env myDb access classId objectId subId
        = none
      ∨ object_access_hook_QuotaStmt env myDb access classId objectId subId
        = some objectId) := by
  constructor
  · constructor
    · intro h
      unfold object_access_hook_QuotaStmt report_relation_cache_helper at h
      split_ifs at h with h1 h2 h3 h4 h5 <;> try (exact Option.noConfusion h)
      rcases not_or.mp h1 with ⟨hc, hs⟩
      refine ⟨not_not.mp h3, not_not.mp hc, not_not.mp hs, Nat.not_lt.mp h2,
        ?_, ?_, h5⟩
      · cases hdisp : env.isQueryDispatcher with
        | false => rfl
        | true => exact absurd (by simp [hdisp]) h4
      · cases hmr : env.isRoleMirror with
        | false => rfl
        | true => exact absurd (by simp [hmr]) h4
    · rintro ⟨ha, hc, hs, hge, hd, hm, hmem⟩
      unfold object_access_hook_QuotaStmt report_relation_cache_helper
      simp [ha, hc, hs, hd, hm, hmem, Nat.not_lt.mpr hge]
  · unfold object_access_hook_QuotaStmt report_relation_cache_helper
    split_ifs <;> simp

theorem mem_hashEnterNull_of_mem (m : ActiveTablesMap)
    (e x : DiskQuotaActiveTableFileEntry) (h : x ∈ m.entries) :
    x ∈ (hashEnterNull m e).entries := by
  unfold hashEnterNull
  split_ifs <;> simp [h]

theorem mem_of_mem_hashEnterNull (m : ActiveTablesMap)
    (e x : DiskQuotaActiveTableFileEntry)
    (h : x ∈ (hashEnterNull m e).entries) : x ∈ m.entries ∨ x = e := by
  unfold hashEnterNull at h
  split_ifs at h
  · exact Or.inl h
  · rcases List.mem_append.mp h with h1 | h1
    · exact Or.inl h1
    · exact Or.inr (List.mem_singleton.mp h1)
  · exact Or.inl h

theorem mem_foldl_hashEnterNull_of_mem
    (x : DiskQuotaActiveTableFileEntry) :
    ∀ (us : List DiskQuotaActiveTableFileEntry) (m : ActiveTablesMap),
      x ∈ m.entries → x ∈ (us.foldl hashEnterNull m).entries := by
  intro us
  induction us with
  | nil => intro m h; exact h
  | cons u rest ih =>
      intro m h
      exact ih _ (mem_hashEnterNull_of_mem m u x h)

theorem mem_of_mem_foldl_hashEnterNull
    (x : DiskQuotaActiveTableFileEntry) :
    ∀ (us : List DiskQuotaActiveTableFileEntry) (m : ActiveTablesMap),
      x ∈ (us.foldl hashEnterNull m).entries → x ∈ m.entries ∨ x ∈ us := by
  intro us
  induction us with
  | nil => intro m h; exact Or.inl h
  | cons u rest ih =>
      intro m h
      rcases ih _ h with h1 | h1
      · rcases mem_of_mem_hashEnterNull m u x h1 with h2 | h2
        · exact Or.inl h2
        · exact Or.inr (h2 ▸ List.mem_cons_self _ _)
      · exact Or.inr (List.mem_cons_of_mem _ h1)

theorem foldl_hashEnterNull_adds :
    ∀ (us : List DiskQuotaActiveTableFileEntry) (m : ActiveTablesMap),
      us.Nodup → (∀ x ∈ us, x ∉ m.entries) →
      m.entries.length + us.length ≤ m.cap →
      ∀ x ∈ us, x ∈ (us.foldl hashEnterNull m).entries := by
  intro us
  induction us with
  | nil => intro m _ _ _ x hx; cases hx
  | cons u rest ih =>
      intro m hnd hdisj hcap x hx
      have hu_abs : u ∉ m.entries := hdisj u (List.mem_cons_self _ _)
      have hroom : m.entries.length < m.cap := by
        simp only [List.length_cons] at hcap
        omega
      have hstep : hashEnterNull m u = { m with entries := m.entries ++ [u] } := by
        unfold hashEnterNull
        rw [if_neg hu_abs, if_pos hroom]
      rw [List.foldl_cons]
      rcases List.mem_cons.mp hx with hxu | hxr
      · subst hxu
        apply mem_foldl_hashEnterNull_of_mem
        rw [hstep]
        simp
      · have hu_notin_rest : u ∉ rest := (List.nodup_cons.mp hnd).1
        apply ih (hashEnterNull m u) (List.nodup_cons.mp hnd).2
        · intro y hy
          rw [hstep]
          simp only [List.mem_append, List.mem_singleton]
          rintro (hy1 | hy1)
          · exact hdisj y (List.mem_cons_of_mem _ hy) hy1
          · exact hu_notin_rest (hy1 ▸ hy)
        · rw [hstep]
          simp only [List.length_append, List.length_singleton]
          simp only [List.length_cons] at hcap
          omega
        · exact hxr

theorem length_filter_add_le {α : Type} (p q : α → Bool)
    (h : ∀ x, p x = true → q x = true → False) :
    ∀ l : List α, (l.filter p).length + (l.filter q).length ≤ l.length := by
  intro l
  induction l with
  | nil => simp
  | cons x rest ih =>
      cases hp : p x with
      | true =>
          cases hq : q x with
          | true => exact (h x hp hq).elim
          | false => simp [List.filter_cons, hp, hq]; omega
      | false =>
          cases hq : q x <;> simp [List.filter_cons, hp, hq] <;> omega

theorem mem_foldl_oidSetInsert :
    ∀ (l s : List Oid) (o : Oid),
      o ∈ l.foldl oidSetInsert s ↔ o ∈ s ∨ o ∈ l := by
  intro l
  induction l with
  | nil => simp
  | cons x rest ih =>
      intro s o
      rw [List.foldl_cons, ih]
      unfold oidSetInsert
      split_ifs with h
      · simp only [List.mem_cons]
        constructor
        · rintro (h1 | h1)
          · exact Or.inl h1
          · exact Or.inr (Or.inr h1)
        · rintro (h1 | h1 | h1)
          · exact Or.inl h1
          · exact Or.inl (h1 ▸ h)
          · exact Or.inr h1
      · simp only [List.mem_append, List.mem_singleton, List.mem_cons]
        tauto

/-- C9: the FETCH_ACTIVE_OID drain is a no-op on every shared active-table
entry whose db_id differs from the current database: such an entry is in the
shared map after the call exactly when it was before (entries are whole keys,
so presence is preservation). -/
theorem C9_drain_other_db_frame (myDb : Oid) (resolve : RelFileNode → Oid)
    (primary : Oid → Oid) (shared : ActiveTablesMap)
    (e : DiskQuotaActiveTableFileEntry) (hdb : e.dbid ≠ myDb) :
    e ∈ (get_active_tables_oid myDb resolve primary shared).1.entries
      ↔ e ∈ shared.entries := by
  unfold get_active_tables_oid put_back_unresolved
  simp only []
  constructor
  · intro h
    rcases mem_of_mem_foldl_hashEnterNull e _ _ h with h1 | h1
    · exact (List.mem_filter.mp h1).1
    · rcases List.mem_filter.mp h1 with ⟨h2, _⟩
      rcases List.mem_filter.mp h2 with ⟨_, h3⟩
      exact absurd (of_decide_eq_true h3) hdb
  · intro h
    apply mem_foldl_hashEnterNull_of_mem
    exact List.mem_filter.mpr ⟨h, decide_eq_true hdb⟩

/-- Witness for C9: an entry of database 6 survives a drain for database 5. -/
theorem C9_drain_other_db_frame_witness :
    (⟨6, 9, 7⟩ : DiskQuotaActiveTableFileEntry)
      ∈ (get_active_tables_oid 5 (fun _ => InvalidOid) id
          ⟨[⟨6, 9, 7⟩], 10⟩).1.entries :=
  (C9_drain_other_db_frame 5 (fun _ => InvalidOid) id ⟨[⟨6, 9, 7⟩], 10⟩
    ⟨6, 9, 7⟩ (by decide)).mpr (by decide)

/-- C4: FETCH_ACTIVE_OID drains exactly the shared entries of the current
database: the returned set contains an oid exactly when it is the primary
relation oid of a resolvable drained entry; every drained entry that fails to
resolve is put back into the shared map; and every drained entry that did
resolve is gone from the shared map. (The shared hash map holds distinct keys
and never exceeds its capacity, giving the two hypotheses.) -/
theorem C4_fetch_active_oid_drain (myDb : Oid) (resolve : RelFileNode → Oid)
    (primary : Oid → Oid) (shared : ActiveTablesMap)
    (hnd : shared.entries.Nodup)
    (hcap : shared.entries.length ≤ shared.cap) :
    (∀ o : Oid, o ∈ (get_active_tables_oid myDb resolve primary shared).2
      ↔ ∃ e, e ∈ shared.entries ∧ e.dbid = myDb
          ∧ resolve (entryRelFileNode e) ≠ InvalidOid
          ∧ primary (resolve (entryRelFileNode e)) = o)
    ∧ (∀ e, e ∈ shared.entries → e.dbid = myDb →
        resolve (entryRelFileNode e) = InvalidOid →
        e ∈ (get_active_tables_oid myDb resolve primary shared).1.entries)
    ∧ (∀ e, e ∈ shared.entries → e.dbid = myDb →
        resolve (entryRelFileNode e) ≠ InvalidOid →
        e ∉ (get_active_tables_oid myDb resolve primary shared).1.entries) := by
  refine ⟨?_, ?_, ?_⟩
  · intro o
    unfold get_active_tables_oid
    rw [mem_foldl_oidSetInsert]
    simp only [List.not_mem_nil, false_or, List.mem_map, List.mem_filter,
      decide_eq_true_eq]
    constructor
    · rintro ⟨e, ⟨⟨he, hdb⟩, hres⟩, hprim⟩
      exact ⟨e, he, hdb, hres, hprim⟩
    · rintro ⟨e, he, hdb, hres, hprim⟩
      exact ⟨e, ⟨⟨he, hdb⟩, hres⟩, hprim⟩
  · intro e he hdb hres
    unfold get_active_tables_oid put_back_unresolved
    simp only []
    apply foldl_hashEnterNull_adds
    · exact ((hnd.filter _).filter _)
    · intro x hx
      rcases List.mem_filter.mp hx with ⟨hx1, _⟩
      rcases List.mem_filter.mp hx1 with ⟨_, hx2⟩
      intro hmem
      rcases List.mem_filter.mp hmem with ⟨_, hx3⟩
      exact (of_decide_eq_true hx3) (of_decide_eq_true hx2)
    · rw [List.filter_filter]
      calc (shared.entries.filter (fun e => decide (e.dbid ≠ myDb))).length
            + (shared.entries.filter (fun e =>
                decide (resolve (entryRelFileNode e) = InvalidOid)
                  && decide (e.dbid = myDb))).length
          ≤ shared.entries.length := by
            apply length_filter_add_le
            intro x hp hq
            simp only [Bool.and_eq_true, decide_eq_true_eq] at hp hq
            exact hp hq.2
        _ ≤ shared.cap := hcap
    · exact List.mem_filter.mpr
        ⟨List.mem_filter.mpr ⟨he, decide_eq_true hdb⟩, decide_eq_true hres⟩
  · intro e he hdb hres hmem
    unfold get_active_tables_oid put_back_unresolved at hmem
    simp only [] at hmem
    rcases mem_of_mem_foldl_hashEnterNull e _ _ hmem with h1 | h1
    · rcases List.mem_filter.mp h1 with ⟨_, h2⟩
      exact (of_decide_eq_true h2) hdb
    · rcases List.mem_filter.mp h1 with ⟨_, h2⟩
      exact hres (of_decide_eq_true h2)

/-- Witness for C4: with shared entries for databases 5 and 6 where only
relfilenode 9 resolves (to oid 100, primary 101), the call for database 5
returns exactly 101, puts the unresolvable (5, 8, 7) back, and drops the
resolved (5, 9, 7) from the shared map. -/
theorem C4_fetch_active_oid_drain_witness :
    (101 ∈ (get_active_tables_oid 5
        (fun rn => if rn.relNode = 9 then 100 else InvalidOid) (fun o => o + 1)
        ⟨[⟨5, 9, 7⟩, ⟨5, 8, 7⟩, ⟨6, 9, 7⟩], 10⟩).2)
    ∧ (⟨5, 8, 7⟩ : DiskQuotaActiveTableFileEntry)
        ∈ (get_active_tables_oid 5
            (fun rn => if rn.relNode = 9 then 100 else InvalidOid)
            (fun o => o + 1)
            ⟨[⟨5, 9, 7⟩, ⟨5, 8, 7⟩, ⟨6, 9, 7⟩], 10⟩).1.entries
    ∧ (⟨5, 9, 7⟩ : DiskQuotaActiveTableFileEntry)
        ∉ (get_active_tables_oid 5
            (fun rn => if rn.relNode = 9 then 100 else InvalidOid)
            (fun o => o + 1)
            ⟨[⟨5, 9, 7⟩, ⟨5, 8, 7⟩, ⟨6, 9, 7⟩], 10⟩).1.entries := by
  have h := C4_fetch_active_oid_drain 5
    (fun rn => if rn.relNode = 9 then 100 else InvalidOid) (fun o => o + 1)
    ⟨[⟨5, 9, 7⟩, ⟨5, 8, 7⟩, ⟨6, 9, 7⟩], 10⟩ (by decide) (by decide)
  refine ⟨(h.1 101).mpr ⟨⟨5, 9, 7⟩, by decide, by decide, by decide, by decide⟩,
    h.2.1 ⟨5, 8, 7⟩ (by decide) (by decide) (by decide),
    h.2.2 ⟨5, 9, 7⟩ (by decide) (by decide) (by decide)⟩

/-- C10: the put-back of unresolved entries never emits a warning (the
HASH_ENTER_NULL result is not checked, unlike the probe overflow path); at
capacity an absent entry is silently discarded, the shared map staying as it
was; and the oid set returned by get_active_tables_oid does not depend on the
shared-map capacity, so the function returns the resolved set normally even
when the put-back drops entries. -/
theorem C10_putback_silent_discard :
    (∀ (m : ActiveTablesMap) (us : List DiskQuotaActiveTableFileEntry),
      (put_back_unresolved m us).2 = [])
    ∧ (∀ (m : ActiveTablesMap) (e : DiskQuotaActiveTableFileEntry),
        m.cap ≤ m.entries.length → e ∉ m.entries →
        put_back_unresolved m [e] = (m, []))
    ∧ (∀ (myDb : Oid) (resolve : RelFileNode → Oid) (primary : Oid → Oid)
        (es : List DiskQuotaActiveTableFileEntry) (c c' : Nat),
        (get_active_tables_oid myDb resolve primary ⟨es, c⟩).2
          = (get_active_tables_oid myDb resolve primary ⟨es, c'⟩).2) := by
  refine ⟨fun m us => rfl, ?_, fun myDb resolve primary es c c' => rfl⟩
  intro m e hcap habs
  unfold put_back_unresolved
  simp only [List.foldl_cons, List.foldl_nil]
  unfold hashEnterNull
  rw [if_neg habs, if_neg (Nat.not_lt.mpr hcap)]

/-- Witness for C10: a full one-slot map silently drops a put-back entry. -/
theorem C10_putback_silent_discard_witness :
    put_back_unresolved ⟨[⟨5, 1, 1⟩], 1⟩ [⟨5, 9, 7⟩]
      = (⟨[⟨5, 1, 1⟩], 1⟩, []) :=
  C10_putback_silent_discard.2.1 ⟨[⟨5, 1, 1⟩], 1⟩ ⟨5, 9, 7⟩
    (by decide) (by decide)

/-- The cluster-total (seg -1) size currently held for relation R, 0 when the
row is absent. -/
def negSize (m : StatsMap) (R : Oid) : Int :=
  match statsLookup m ⟨R, -1⟩ with
  | some e => e.tablesize
  | none => 0

/-- A map is closed under totals when every present key has its seg -1 row. -/
def negClosed (m : StatsMap) : Prop :=
  ∀ k, statsContains m k = true → statsContains m ⟨k.reloid, -1⟩ = true

theorem statsContains_update_self (m : StatsMap) (k : TableEntryKey)
    (e : DiskQuotaActiveTableEntry)
    (f : DiskQuotaActiveTableEntry → DiskQuotaActiveTableEntry) :
    statsContains (statsUpdate m k e f) k = true := by
  unfold statsContains
  rw [statsLookup_update_self]
  rfl

theorem statsContains_update_mono (m : StatsMap) (k k' : TableEntryKey)
    (e : DiskQuotaActiveTableEntry)
    (f : DiskQuotaActiveTableEntry → DiskQuotaActiveTableEntry)
    (h : statsContains m k' = true) :
    statsContains (statsUpdate m k e f) k' = true := by
  by_cases hk : k' = k
  · subst hk
    exact statsContains_update_self m k' e f
  · unfold statsContains at h ⊢
    rw [statsLookup_update_other m k k' e f hk]
    exact h

theorem statsContains_update_inv (m : StatsMap) (k k' : TableEntryKey)
    (e : DiskQuotaActiveTableEntry)
    (f : DiskQuotaActiveTableEntry → DiskQuotaActiveTableEntry)
    (h : statsContains (statsUpdate m k e f) k' = true) :
    statsContains m k' = true ∨ k' = k := by
  by_cases hk : k' = k
  · exact Or.inr hk
  · unfold statsContains at h
    rw [statsLookup_update_other m k k' e f hk] at h
    exact Or.inl h

theorem statsLookup_pull_m1 (nf : Nat) (m : StatsMap) (row : SegStatRow)
    (hseg : (0 : Int) ≤ row.segid) (k : TableEntryKey) (hk : k.segid = -1) :
    statsLookup
      (if nf = 3 then
        statsUpdate m ⟨row.reloid, row.segid⟩
          ⟨row.reloid, row.tablesize, row.segid⟩
          (fun old => { old with tablesize := row.tablesize })
      else m) k
      = statsLookup m k := by
  split_ifs
  · apply statsLookup_update_other
    intro he
    rw [he] at hk
    simp only [] at hk
    omega
  · rfl

theorem negSize_pull_row_step (nf : Nat) (m : StatsMap) (row : SegStatRow)
    (R : Oid) (hseg : (0 : Int) ≤ row.segid) :
    negSize (pull_row_step nf m row) R = negSize m R + rowContribution R row := by
  unfold pull_row_step negSize rowContribution
  by_cases hR : row.reloid = R
  · subst hR
    rw [statsLookup_update_self,
      statsLookup_pull_m1 nf m row hseg ⟨row.reloid, -1⟩ rfl]
    cases hl : statsLookup m ⟨row.reloid, -1⟩ with
    | none => simp [Option.elim]
    | some e => simp [Option.elim]
  · have hne : (⟨R, -1⟩ : TableEntryKey) ≠ ⟨row.reloid, -1⟩ := by
      intro he
      exact hR (congrArg TableEntryKey.reloid he).symm
    rw [statsLookup_update_other _ _ _ _ _ hne,
      statsLookup_pull_m1 nf m row hseg ⟨R, -1⟩ rfl]
    simp [hR]

theorem statsContains_pull_row_step_mono (nf : Nat) (m : StatsMap)
    (row : SegStatRow) (k : TableEntryKey) (h : statsContains m k = true) :
    statsContains (pull_row_step nf m row) k = true := by
  unfold pull_row_step
  apply statsContains_update_mono
  split_ifs
  · exact statsContains_update_mono _ _ _ _ _ h
  · exact h

theorem statsContains_pull_row_step_neg (nf : Nat) (m : StatsMap)
    (row : SegStatRow) :
    statsContains (pull_row_step nf m row) ⟨row.reloid, -1⟩ = true :=
  statsContains_update_self _ _ _ _

theorem statsContains_pull_row_step_seg (m : StatsMap) (row : SegStatRow) :
    statsContains (pull_row_step 3 m row) ⟨row.reloid, row.segid⟩ = true := by
  unfold pull_row_step
  apply statsContains_update_mono
  rw [if_pos rfl]
  exact statsContains_update_self _ _ _ _

theorem negClosed_pull_row_step (nf : Nat) (m : StatsMap) (row : SegStatRow)
    (h : negClosed m) : negClosed (pull_row_step nf m row) := by
  intro k hk
  unfold pull_row_step at hk
  rcases statsContains_update_inv _ _ _ _ _ hk with hk1 | hk1
  · by_cases h3 : nf = 3
    · rw [if_pos h3] at hk1
      rcases statsContains_update_inv _ _ _ _ _ hk1 with hk2 | hk2
      · exact statsContains_pull_row_step_mono nf m row _ (h k hk2)
      · subst hk2
        exact statsContains_pull_row_step_neg nf m row
    · rw [if_neg h3] at hk1
      exact statsContains_pull_row_step_mono nf m row _ (h k hk1)
  · subst hk1
    exact statsContains_pull_row_step_neg nf m row

theorem negSize_rows_fold (nf : Nat) :
    ∀ (rows : List SegStatRow) (m : StatsMap) (R : Oid),
      (∀ row ∈ rows, (0 : Int) ≤ row.segid) →
      negSize (rows.foldl (pull_row_step nf) m) R
        = negSize m R + (rows.map (rowContribution R)).sum := by
  intro rows
  induction rows with
  | nil => intro m R _; simp
  | cons row rest ih =>
      intro m R hseg
      rw [List.foldl_cons,
        ih _ R (fun r hr => hseg r (List.mem_cons_of_mem _ hr)),
        negSize_pull_row_step nf m row R (hseg row (List.mem_cons_self _ _))]
      simp only [List.map_cons, List.sum_cons]
      omega

theorem statsContains_rows_fold_mono (nf : Nat) :
    ∀ (rows : List SegStatRow) (m : StatsMap) (k : TableEntryKey),
      statsContains m k = true →
      statsContains (rows.foldl (pull_row_step nf) m) k = true := by
  intro rows
  induction rows with
  | nil => intro m k h; exact h
  | cons row rest ih =>
      intro m k h
      rw [List.foldl_cons]
      exact ih _ k (statsContains_pull_row_step_mono nf m row k h)

theorem negClosed_rows_fold (nf : Nat) :
    ∀ (rows : List SegStatRow) (m : StatsMap),
      negClosed m → negClosed (rows.foldl (pull_row_step nf) m) := by
  intro rows
  induction rows with
  | nil => intro m h; exact h
  | cons row rest ih =>
      intro m h
      rw [List.foldl_cons]
      exact ih _ (negClosed_pull_row_step nf m row h)

theorem statsContains_rows_fold_row :
    ∀ (rows : List SegStatRow) (m : StatsMap) (row : SegStatRow),
      row ∈ rows →
      statsContains (rows.foldl (pull_row_step 3) m)
        ⟨row.reloid, row.segid⟩ = true := by
  intro rows
  induction rows with
  | nil => intro m row h; cases h
  | cons r rest ih =>
      intro m row h
      rcases List.mem_cons.mp h with h1 | h1
      · subst h1
        rw [List.foldl_cons]
        exact statsContains_rows_fold_mono 3 rest _ _
          (statsContains_pull_row_step_seg m row)
      · rw [List.foldl_cons]
        exact ih _ row h1

theorem negSize_results_fold :
    ∀ (results : List SegResult) (m : StatsMap) (R : Oid),
      (∀ res ∈ results, ∀ row ∈ res.rows, (0 : Int) ≤ row.segid) →
      negSize (pull_active_table_size_from_seg m results) R
        = negSize m R + sumReported results R := by
  intro results
  induction results with
  | nil => intro m R _; simp [pull_active_table_size_from_seg, sumReported]
  | cons res rest ih =>
      intro m R h
      have hstep : pull_active_table_size_from_seg m (res :: rest)
          = pull_active_table_size_from_seg
              (res.rows.foldl (pull_row_step res.nfields) m) rest := rfl
      rw [hstep, ih _ R (fun r hr => h r (List.mem_cons_of_mem _ hr)),
        negSize_rows_fold res.nfields res.rows m R
          (h res (List.mem_cons_self _ _))]
      unfold sumReported
      simp only [List.map_cons, List.sum_cons]
      omega

theorem statsContains_results_fold_mono :
    ∀ (results : List SegResult) (m : StatsMap) (k : TableEntryKey),
      statsContains m k = true →
      statsContains (pull_active_table_size_from_seg m results) k = true := by
  intro results
  induction results with
  | nil => intro m k h; exact h
  | cons res rest ih =>
      intro m k h
      exact ih _ k (statsContains_rows_fold_mono res.nfields res.rows m k h)

theorem negClosed_results_fold :
    ∀ (results : List SegResult) (m : StatsMap),
      negClosed m → negClosed (pull_active_table_size_from_seg m results) := by
  intro results
  induction results with
  | nil => intro m h; exact h
  | cons res rest ih =>
      intro m h
      exact ih _ (negClosed_rows_fold res.nfields res.rows m h)

theorem statsContains_results_fold_row :
    ∀ (results : List SegResult) (m : StatsMap) (res : SegResult),
      res ∈ results → res.nfields = 3 →
      ∀ row ∈ res.rows,
        statsContains (pull_active_table_size_from_seg m results)
          ⟨row.reloid, row.segid⟩ = true := by
  intro results
  induction results with
  | nil => intro m res h; cases h
  | cons r rest ih =>
      intro m res h h3 row hrow
      rcases List.mem_cons.mp h with h1 | h1
      · subst h1
        have hstep : pull_active_table_size_from_seg m (res :: rest)
            = pull_active_table_size_from_seg
                (res.rows.foldl (pull_row_step res.nfields) m) rest := rfl
        rw [hstep]
        apply statsContains_results_fold_mono
        rw [h3]
        exact statsContains_rows_fold_row res.rows m row hrow
      · exact ih _ res h1 h3 row hrow

/-- C3: starting from the empty coordinator map, after aggregating all
segment replies every relation present in the result map has a seg -1 row
whose tablesize is the sum of the sizes reported for it by all segments; and
every (relation, segid) pair reported in a three-column (protocol v2) reply
has its own per-segment row. Reported segids are nonnegative, as produced by
GP_SEGMENT_ID. -/
theorem C3_aggregate_totals (results : List SegResult)
    (hseg : ∀ res ∈ results, ∀ row ∈ res.rows, (0 : Int) ≤ row.segid) :
    (∀ k : TableEntryKey,
      statsContains (pull_active_table_size_from_seg [] results) k = true →
      ∃ e, statsLookup (pull_active_table_size_from_seg [] results)
          ⟨k.reloid, -1⟩ = some e
        ∧ e.tablesize = sumReported results k.reloid)
    ∧ (∀ res ∈ results, res.nfields = 3 → ∀ row ∈ res.rows,
        statsContains (pull_active_table_size_from_seg [] results)
          ⟨row.reloid, row.segid⟩ = true) := by
  constructor
  · intro k hk
    have hempty : negClosed ([] : StatsMap) := by
      intro k h
      simp [statsContains, statsLookup] at h
    have hc := negClosed_results_fold results [] hempty k hk
    unfold statsContains at hc
    rcases Option.isSome_iff_exists.mp hc with ⟨e, he⟩
    refine ⟨e, he, ?_⟩
    have hns := negSize_results_fold results [] k.reloid hseg
    have h0 : negSize ([] : StatsMap) k.reloid = 0 := rfl
    rw [h0, zero_add] at hns
    unfold negSize at hns
    rw [he] at hns
    exact hns
  · intro res hres h3 row hrow
    exact statsContains_results_fold_row results [] res hres h3 row hrow

/-- Witness for C3: two v2 replies reporting relation 10 with sizes 5 on
segment 0 and 6 on segment 1 produce a seg -1 row of 11 and keep both
per-segment rows. -/
theorem C3_aggregate_totals_witness :
    (∃ e, statsLookup (pull_active_table_size_from_seg []
        [⟨3, [⟨10, 5, 0⟩]⟩, ⟨3, [⟨10, 6, 1⟩]⟩]) ⟨10, -1⟩ = some e
      ∧ e.tablesize = sumReported [⟨3, [⟨10, 5, 0⟩]⟩, ⟨3, [⟨10, 6, 1⟩]⟩] 10)
    ∧ statsContains (pull_active_table_size_from_seg []
        [⟨3, [⟨10, 5, 0⟩]⟩, ⟨3, [⟨10, 6, 1⟩]⟩]) ⟨10, 1⟩ = true := by
  have h := C3_aggregate_totals [⟨3, [⟨10, 5, 0⟩]⟩, ⟨3, [⟨10, 6, 1⟩]⟩]
    (by decide)
  exact ⟨h.1 ⟨10, 0⟩ (by decide),
    h.2 ⟨3, [⟨10, 6, 1⟩]⟩ (by decide) rfl ⟨10, 6, 1⟩ (by decide)⟩

/-- C7: the fetch_table_stat reply shape follows the extension major version
— version 1 builds a two-column tuple descriptor and load_table_size selects
a constant -1 segid, version 2 builds three columns (adding GP_SEGMENT_ID)
and selects the segid column, and any other major version is an error in both
places — and the coordinator detects the version of a reply by its column
count: a reply row without the third column feeds only the seg -1 total
(no per-segment key is touched), while a three-column reply row also writes
the per-segment entry with the reported size. -/
theorem C7_version_bifurcation :
    (createTemplateTupleDescCols 1 = .ok 2
      ∧ createTemplateTupleDescCols 2 = .ok 3)
    ∧ (load_table_size_query 1
        = .ok "select tableid, size, CAST(-1 AS smallint) from diskquota.table_size"
      ∧ load_table_size_query 2
        = .ok "select tableid, size, segid from diskquota.table_size")
    ∧ (∀ v : Int, v ≠ 1 → v ≠ 2 →
        createTemplateTupleDescCols v = .error unknownVersionMsg
        ∧ load_table_size_query v = .error unknownVersionMsg)
    ∧ (∀ nf : Nat, nf ≠ 3 →
        ∀ (m : StatsMap) (row : SegStatRow) (k : TableEntryKey),
          k.segid ≠ -1 →
          statsLookup (pull_row_step nf m row) k = statsLookup m k)
    ∧ (∀ (m : StatsMap) (row : SegStatRow), row.segid ≠ -1 →
        ∃ e, statsLookup (pull_row_step 3 m row) ⟨row.reloid, row.segid⟩
            = some e ∧ e.tablesize = row.tablesize) := by
  refine ⟨⟨rfl, rfl⟩, ⟨rfl, rfl⟩, ?_, ?_, ?_⟩
  · intro v h1 h2
    unfold createTemplateTupleDescCols load_table_size_query
    rw [if_neg h1, if_neg h2, if_neg h1, if_neg h2]
    exact ⟨rfl, rfl⟩
  · intro nf h3 m row k hk
    unfold pull_row_step
    rw [if_neg h3]
    apply statsLookup_update_other
    intro he
    rw [he] at hk
    exact hk rfl
  · intro m row hrow
    unfold pull_row_step
    rw [if_pos rfl]
    have hne : (⟨row.reloid, row.segid⟩ : TableEntryKey)
        ≠ ⟨row.reloid, -1⟩ := by
      intro he
      have hs := congrArg TableEntryKey.segid he
      simp only [] at hs
      exact hrow hs
    rw [statsLookup_update_other _ _ _ _ _ hne, statsLookup_update_self]
    refine ⟨_, rfl, ?_⟩
    cases statsLookup m ⟨row.reloid, row.segid⟩ <;> rfl

/-- Witness for C7: major version 5 errors out in both branch points; a
two-column reply row leaves the per-segment key untouched; a three-column
reply row records size 5 for (relation 10, segment 0). -/
theorem C7_version_bifurcation_witness :
    createTemplateTupleDescCols 5 = .error unknownVersionMsg
    ∧ statsLookup (pull_row_step 2 [] ⟨10, 5, 0⟩) ⟨10, 0⟩
        = statsLookup [] ⟨10, 0⟩
    ∧ ∃ e, statsLookup (pull_row_step 3 [] ⟨10, 5, 0⟩) ⟨10, 0⟩ = some e
        ∧ e.tablesize = 5 := by
  have h := C7_version_bifurcation
  exact ⟨(h.2.2.1 5 (by decide) (by decide)).1,
    h.2.2.2.1 2 (by decide) [] ⟨10, 5, 0⟩ ⟨10, 0⟩ (by decide),
    h.2.2.2.2 [] ⟨10, 5, 0⟩ (by decide)⟩

end Diskquota
